import Mathlib

/-!
Shallow embedding of the recognition-and-registration decision engine of the
Attendance-Monitoring-System repository (`ml_service/face_processor.py` and
`ml_service/utils.py`), together with theorems settling the frozen claims.

Modelling conventions:
* numpy float vectors become `List ℝ`; `np.linalg.norm` becomes a real square
  root of the sum of squares; elementwise numpy operations become `zipWith`.
* The external collaborators (base64 decoder, MTCNN detector, DeepFace
  embedder, cv2 Laplacian) are treated as oracles: their outputs are inputs
  of the embedded functions, exactly as the spec's "excluded collaborators"
  section prescribes.
* Python `list` indexing that can raise `IndexError` inside a `try` block is
  embedded as an explicit bounds check selecting the `except` branch.
-/

namespace AMS

/-! ## Vector primitives (`utils.py`, class `MathUtils`) -/

/-- Dot product of two vectors, `np.dot(vec1, vec2)`.  numpy requires equal
shapes; `zipWith` realizes the elementwise product on the common prefix. -/
def dotList (v w : List ℝ) : ℝ := (List.zipWith (· * ·) v w).sum

/-- Euclidean norm `np.linalg.norm(v)` of a vector. -/
noncomputable def l2norm (v : List ℝ) : ℝ := Real.sqrt (dotList v v)

/-- `MathUtils.calculate_euclidean_distance`: `np.linalg.norm(vec1 - vec2)`. -/
noncomputable def calculate_euclidean_distance (v w : List ℝ) : ℝ :=
  l2norm (List.zipWith (· - ·) v w)

/-- `MathUtils.calculate_cosine_similarity`: dot product over the product of
norms, with a guard returning `0` when that product is zero. -/
noncomputable def calculate_cosine_similarity (v w : List ℝ) : ℝ :=
  let norms := l2norm v * l2norm w
  if norms = 0 then 0 else dotList v w / norms

/-- `MathUtils.normalize_vector`: divide by the norm unless it is zero, in
which case the vector is returned unchanged. -/
noncomputable def normalize_vector (v : List ℝ) : List ℝ :=
  let norm := l2norm v
  if norm = 0 then v else v.map (· / norm)

/-! ### Basic lemmas about the primitives -/

lemma zipWith_mul_self (v : List ℝ) :
    List.zipWith (· * ·) v v = v.map (fun x => x * x) := by
  induction v with
  | nil => rfl
  | cons x xs ih => simp [List.zipWith, ih]

lemma dotList_self_nonneg (v : List ℝ) : 0 ≤ dotList v v := by
  rw [dotList, zipWith_mul_self]
  apply List.sum_nonneg
  intro x hx
  rcases List.mem_map.1 hx with ⟨y, _, rfl⟩
  exact mul_self_nonneg y

lemma l2norm_nonneg (v : List ℝ) : 0 ≤ l2norm v := Real.sqrt_nonneg _

lemma calculate_euclidean_distance_nonneg (v w : List ℝ) :
    0 ≤ calculate_euclidean_distance v w := Real.sqrt_nonneg _

/-- Sum of a list as a sum over `Finset.range` of its length. -/
lemma list_sum_eq_range (l : List ℝ) :
    l.sum = ∑ i ∈ Finset.range l.length, l.getD i 0 := by
  induction l with
  | nil => simp
  | cons x xs ih =>
      rw [List.sum_cons, List.length_cons, Finset.sum_range_succ']
      simp [ih, add_comm]

/-- The zipWith-product sum as a `Finset.range` sum over the common length. -/
lemma dotList_eq_range (v w : List ℝ) :
    dotList v w =
      ∑ i ∈ Finset.range (min v.length w.length), v.getD i 0 * w.getD i 0 := by
  induction v generalizing w with
  | nil => simp [dotList]
  | cons x xs ih =>
      cases w with
      | nil => simp [dotList]
      | cons y ys =>
          have h : min (xs.length + 1) (ys.length + 1) = min xs.length ys.length + 1 :=
            Nat.succ_min_succ _ _
          rw [dotList, List.zipWith_cons_cons, List.sum_cons, List.length_cons,
            List.length_cons, h, Finset.sum_range_succ']
          simp only [List.getD_cons_succ, List.getD_cons_zero]
          rw [← dotList, ih]
          ring

lemma dotList_self_eq_range (v : List ℝ) :
    dotList v v = ∑ i ∈ Finset.range v.length, v.getD i 0 ^ 2 := by
  rw [dotList_eq_range, min_self]
  exact Finset.sum_congr rfl fun i _ => (sq (v.getD i 0)).symm

/-- Cauchy–Schwarz for the list primitives: the dot product is at most the
product of the norms (the truncation to the common length only shrinks the
squared sums). -/
lemma dotList_le_l2norm_mul (v w : List ℝ) :
    dotList v w ≤ l2norm v * l2norm w := by
  have hsub₁ : Finset.range (min v.length w.length) ⊆ Finset.range v.length :=
    Finset.range_subset.2 (Nat.min_le_left _ _)
  have hsub₂ : Finset.range (min v.length w.length) ⊆ Finset.range w.length :=
    Finset.range_subset.2 (Nat.min_le_right _ _)
  have hmono₁ :
      (∑ i ∈ Finset.range (min v.length w.length), v.getD i 0 ^ 2) ≤
        ∑ i ∈ Finset.range v.length, v.getD i 0 ^ 2 :=
    Finset.sum_le_sum_of_subset_of_nonneg hsub₁ (fun i _ _ => sq_nonneg _)
  have hmono₂ :
      (∑ i ∈ Finset.range (min v.length w.length), w.getD i 0 ^ 2) ≤
        ∑ i ∈ Finset.range w.length, w.getD i 0 ^ 2 :=
    Finset.sum_le_sum_of_subset_of_nonneg hsub₂ (fun i _ _ => sq_nonneg _)
  have hcs := Real.sum_mul_le_sqrt_mul_sqrt
    (Finset.range (min v.length w.length)) (fun i => v.getD i 0) (fun i => w.getD i 0)
  calc dotList v w
      = ∑ i ∈ Finset.range (min v.length w.length), v.getD i 0 * w.getD i 0 :=
        dotList_eq_range v w
    _ ≤ Real.sqrt (∑ i ∈ Finset.range (min v.length w.length), v.getD i 0 ^ 2) *
          Real.sqrt (∑ i ∈ Finset.range (min v.length w.length), w.getD i 0 ^ 2) := hcs
    _ ≤ Real.sqrt (∑ i ∈ Finset.range v.length, v.getD i 0 ^ 2) *
          Real.sqrt (∑ i ∈ Finset.range w.length, w.getD i 0 ^ 2) := by
        apply mul_le_mul (Real.sqrt_le_sqrt hmono₁) (Real.sqrt_le_sqrt hmono₂)
          (Real.sqrt_nonneg _) (Real.sqrt_nonneg _)
    _ = l2norm v * l2norm w := by
        rw [l2norm, l2norm, dotList_self_eq_range, dotList_self_eq_range]

/-- Cosine similarity never exceeds `1`. -/
lemma calculate_cosine_similarity_le_one (v w : List ℝ) :
    calculate_cosine_similarity v w ≤ 1 := by
  unfold calculate_cosine_similarity
  by_cases h : l2norm v * l2norm w = 0
  · simp [h]
  · simp only [h, if_false]
    have hpos : 0 < l2norm v * l2norm w :=
      lt_of_le_of_ne (mul_nonneg (l2norm_nonneg v) (l2norm_nonneg w)) (Ne.symm h)
    exact (div_le_one hpos).2 (dotList_le_l2norm_mul v w)

lemma map_div_dotList (v : List ℝ) (c : ℝ) :
    dotList (v.map (· / c)) (v.map (· / c)) = dotList v v / c ^ 2 := by
  rw [dotList, zipWith_mul_self, dotList, zipWith_mul_self]
  induction v with
  | nil => simp
  | cons x xs ih =>
      simp only [List.map_cons, List.sum_cons, ih]
      field_simp
      ring

/-- Normalizing a vector of nonzero norm yields a unit vector. -/
lemma l2norm_normalize_of_ne_zero (v : List ℝ) (h : l2norm v ≠ 0) :
    l2norm (normalize_vector v) = 1 := by
  have hnn := l2norm_nonneg v
  have hpos : 0 < l2norm v := lt_of_le_of_ne hnn (Ne.symm h)
  have hdot : dotList v v = l2norm v ^ 2 := by
    rw [l2norm, sq, Real.mul_self_sqrt (dotList_self_nonneg v)]
  unfold normalize_vector
  simp only [h, if_false]
  rw [l2norm, map_div_dotList, hdot, div_self (pow_ne_zero 2 h), Real.sqrt_one]

/-! ## String normalization (Python `str.strip` / `str.upper`)

Python's `strip()` removes leading and trailing whitespace and `upper()`
uppercases every character; both are modelled on the character list so that
they evaluate by kernel reduction. -/

/-- Python `str.strip()`. -/
def pyStrip (s : String) : String :=
  ⟨(((s.data.dropWhile (fun c => c.isWhitespace)).reverse.dropWhile
      (fun c => c.isWhitespace)).reverse)⟩

/-- Python `str.upper()`. -/
def pyUpper (s : String) : String := ⟨s.data.map Char.toUpper⟩

/-! ## Validation (`utils.py`, class `ValidationUtils`) -/

/-- `ValidationUtils.validate_student_id`: non-empty string whose
trimmed-and-uppercased form has length between 6 and 15. -/
def validate_student_id (student_id : String) : Bool :=
  if student_id = "" then false
  else
    let t := pyUpper (pyStrip student_id)
    if t.length < 6 ∨ t.length > 15 then false else true

/-! ## First-occurrence argmin / argmax (`np.argmin`, `np.argmax`)

numpy's `argmin`/`argmax` return the index of the first occurrence of the
extreme value; the running best is replaced only on a strict improvement. -/

noncomputable def argminAux (best : ℝ) (bi i : ℕ) : List ℝ → ℕ
  | [] => bi
  | x :: xs => if x < best then argminAux x i (i + 1) xs else argminAux best bi (i + 1) xs

/-- Index of the first minimum of a list (`np.argmin`); `0` on `[]`. -/
noncomputable def argminIdx : List ℝ → ℕ
  | [] => 0
  | x :: xs => argminAux x 0 1 xs

noncomputable def argmaxAux (best : ℝ) (bi i : ℕ) : List ℝ → ℕ
  | [] => bi
  | x :: xs => if x > best then argmaxAux x i (i + 1) xs else argmaxAux best bi (i + 1) xs

/-- Index of the first maximum of a list (`np.argmax`); `0` on `[]`. -/
noncomputable def argmaxIdx : List ℝ → ℕ
  | [] => 0
  | x :: xs => argmaxAux x 0 1 xs

lemma argminAux_le : ∀ (xs : List ℝ) (best : ℝ) (bi i : ℕ), bi < i →
    argminAux best bi i xs < i + xs.length
  | [], _, _, _, h => by simpa [argminAux] using h
  | x :: xs, best, bi, i, h => by
      rw [argminAux]
      by_cases hx : x < best
      · simp only [hx, if_true]
        have := argminAux_le xs x i (i + 1) (Nat.lt_succ_self i)
        rw [List.length_cons]
        omega
      · simp only [hx, if_false]
        have := argminAux_le xs best bi (i + 1) (Nat.lt_succ_of_lt h)
        rw [List.length_cons]
        omega

lemma argmaxAux_le : ∀ (xs : List ℝ) (best : ℝ) (bi i : ℕ), bi < i →
    argmaxAux best bi i xs < i + xs.length
  | [], _, _, _, h => by simpa [argmaxAux] using h
  | x :: xs, best, bi, i, h => by
      rw [argmaxAux]
      by_cases hx : x > best
      · simp only [hx, if_true]
        have := argmaxAux_le xs x i (i + 1) (Nat.lt_succ_self i)
        rw [List.length_cons]
        omega
      · simp only [hx, if_false]
        have := argmaxAux_le xs best bi (i + 1) (Nat.lt_succ_of_lt h)
        rw [List.length_cons]
        omega

lemma argminIdx_lt_length {l : List ℝ} (h : l ≠ []) : argminIdx l < l.length := by
  cases l with
  | nil => exact absurd rfl h
  | cons x xs =>
      rw [argminIdx]
      have := argminAux_le xs x 0 1 Nat.zero_lt_one
      simpa [List.length_cons, Nat.add_comm] using this

lemma argmaxIdx_lt_length {l : List ℝ} (h : l ≠ []) : argmaxIdx l < l.length := by
  cases l with
  | nil => exact absurd rfl h
  | cons x xs =>
      rw [argmaxIdx]
      have := argmaxAux_le xs x 0 1 Nat.zero_lt_one
      simpa [List.length_cons, Nat.add_comm] using this

lemma getD_mem_of_lt {l : List ℝ} {i : ℕ} (h : i < l.length) : l.getD i 0 ∈ l := by
  rw [List.getD_eq_getElem?_getD, List.getElem?_eq_getElem h, Option.getD_some]
  exact List.getElem_mem h

/-! ## The identity store (`FaceProcessor.__init__` parallel lists) -/

/-- In-memory state of `FaceProcessor`: the three parallel sequences. -/
structure FaceProcessor where
  known_face_encodings : List (List ℝ)
  known_face_names : List String
  known_student_ids : List String

/-- Per-match payload built by `recognize_face` (`student_info` dict). -/
structure StudentInfo where
  student_id : String
  name : String
  confidence : ℝ
  similarity_score : ℝ
  distance_score : ℝ

namespace FaceProcessor

/-- Result assembly of `recognize_face`: building `student_info` indexes
`known_student_ids[best_idx]` and `known_face_names[best_idx]`; on a corrupt
store this raises `IndexError`, which the surrounding `except` turns into
`(None, 1.0)`. -/
noncomputable def mkResult (fp : FaceProcessor) (dists sims : List ℝ)
    (best_idx : ℕ) (confidence : ℝ) : Option StudentInfo × ℝ :=
  if best_idx < fp.known_student_ids.length ∧ best_idx < fp.known_face_names.length then
    (some { student_id := fp.known_student_ids.getD best_idx ""
            name := fp.known_face_names.getD best_idx ""
            confidence := confidence
            similarity_score := sims.getD best_idx 0
            distance_score := dists.getD best_idx 0 },
     dists.getD best_idx 0)
  else (none, 1)

/-- `FaceProcessor.recognize_face`: dual-metric match of a query embedding
against the registry, translated clause by clause from the source. -/
noncomputable def recognize_face (fp : FaceProcessor) (face_embedding : List ℝ)
    (threshold : ℝ) : Option StudentInfo × ℝ :=
  if fp.known_face_encodings = [] then (none, 1)
  else
    let distances := fp.known_face_encodings.map
      (fun k => calculate_euclidean_distance face_embedding k)
    let similarities := fp.known_face_encodings.map
      (fun k => calculate_cosine_similarity face_embedding k)
    let min_distance_idx := argminIdx distances
    let max_similarity_idx := argmaxIdx similarities
    let min_distance := distances.getD min_distance_idx 0
    let max_similarity := similarities.getD max_similarity_idx 0
    if max_similarity > 1 - threshold then
      mkResult fp distances similarities max_similarity_idx max_similarity
    else if min_distance < threshold then
      mkResult fp distances similarities min_distance_idx
        (1 - min_distance / threshold)
    else (none, min_distance)

end FaceProcessor

/-- Modelled from the spec (§4.3 and claim C1): the reference `match`
definition.  Empty registry gives `(none, 1.0)`; otherwise distances and
similarities are computed against every registered embedding, the maximum
similarity is accepted when it exceeds `1 - threshold` with confidence equal
to that similarity, else the minimum distance is accepted when below
`threshold` with confidence `1 - distance / threshold`, else `(none,
min_distance)`.  The accepted candidate is reported as its registry index
paired with its confidence, alongside the raw distance at that index. -/
noncomputable def matchRef (query : List ℝ) (registry : List (List ℝ))
    (threshold : ℝ) : Option (ℕ × ℝ) × ℝ :=
  if registry = [] then (none, 1)
  else
    let distances := registry.map (fun k => calculate_euclidean_distance query k)
    let similarities := registry.map (fun k => calculate_cosine_similarity query k)
    let min_distance_idx := argminIdx distances
    let max_similarity_idx := argmaxIdx similarities
    let min_distance := distances.getD min_distance_idx 0
    let max_similarity := similarities.getD max_similarity_idx 0
    if max_similarity > 1 - threshold then
      (some (max_similarity_idx, max_similarity), distances.getD max_similarity_idx 0)
    else if min_distance < threshold then
      (some (min_distance_idx, 1 - min_distance / threshold), min_distance)
    else (none, min_distance)

/-! ## Enrollment aggregation (`np.mean(valid_embeddings, axis=0)`) -/

/-- Componentwise vector addition. -/
def vecAdd (v w : List ℝ) : List ℝ := List.zipWith (· + ·) v w

/-- Componentwise mean of a family of (equal-length) vectors,
`np.mean(vs, axis=0)`. -/
noncomputable def meanVec : List (List ℝ) → List ℝ
  | [] => []
  | v :: vs => (vs.foldl vecAdd v).map (· / (vs.length + 1 : ℝ))

namespace FaceProcessor

/-- `FaceProcessor.register_student`.  The per-image pipeline (validation,
base64 decode, detection, best-face selection, embedding extraction) consists
of collaborator calls; each sample image is represented by its outcome:
`some e` if the image contributed embedding `e` to `valid_embeddings`,
`none` if it was skipped at any stage.  Writing to `known_face_encodings[idx]`
or `known_face_names[idx]` on a corrupt store raises `IndexError`, caught by
the surrounding `except` which returns `False`; assignments before the raise
persist.  Persistence (`save_student_database`) is modelled as succeeding. -/
noncomputable def register_student (fp : FaceProcessor) (student_id name : String)
    (face_images : List (Option (List ℝ))) : FaceProcessor × Bool :=
  if ¬ validate_student_id student_id then (fp, false)
  else if name = "" then (fp, false)
  else if face_images.length < 2 then (fp, false)
  else
    let sid := pyUpper (pyStrip student_id)
    let nm := pyStrip name
    let valid_embeddings := face_images.filterMap id
    if valid_embeddings.length < 2 then (fp, false)
    else
      let avg_embedding := normalize_vector (meanVec valid_embeddings)
      if sid ∈ fp.known_student_ids then
        let idx := fp.known_student_ids.indexOf sid
        if idx < fp.known_face_encodings.length then
          let fp1 := { fp with
            known_face_encodings := fp.known_face_encodings.set idx avg_embedding }
          if idx < fp.known_face_names.length then
            ({ fp1 with known_face_names := fp1.known_face_names.set idx nm }, true)
          else (fp1, false)
        else (fp, false)
      else
        ({ known_face_encodings := fp.known_face_encodings ++ [avg_embedding]
           known_face_names := fp.known_face_names ++ [nm]
           known_student_ids := fp.known_student_ids ++ [sid] }, true)

/-- `FaceProcessor.delete_student`: pop the record at the first index of the
normalized id from all three lists (ids first, then names, then encodings);
an out-of-range `pop` raises, keeping the pops already done. -/
def delete_student (fp : FaceProcessor) (student_id : String) :
    FaceProcessor × Bool :=
  let sid := pyUpper (pyStrip student_id)
  if sid ∈ fp.known_student_ids then
    let idx := fp.known_student_ids.indexOf sid
    let fp1 := { fp with known_student_ids := fp.known_student_ids.eraseIdx idx }
    if idx < fp.known_face_names.length then
      let fp2 := { fp1 with known_face_names := fp1.known_face_names.eraseIdx idx }
      if idx < fp.known_face_encodings.length then
        ({ fp2 with known_face_encodings := fp2.known_face_encodings.eraseIdx idx },
         true)
      else (fp2, false)
    else (fp1, false)
  else (fp, false)

/-- Contents of the durable pickle snapshot, with the `dict.get` defaults of
`load_student_database` already applied. -/
structure SnapshotData where
  encodings : List (List ℝ)
  names : List String
  student_ids : List String

/-- `FaceProcessor.load_student_database`: when the encodings file exists
(`some data`), the three sequences are replaced wholesale by the file's
contents; otherwise the state is untouched.  Returns `True`. -/
def load_student_database (fp : FaceProcessor) (file : Option SnapshotData) :
    FaceProcessor × Bool :=
  match file with
  | none => (fp, true)
  | some data =>
      ({ known_face_encodings := data.encodings
         known_face_names := data.names
         known_student_ids := data.student_ids }, true)

/-- `FaceProcessor.save_student_database`: serializes the current sequences;
the in-memory state is not mutated.  The durable write is modelled as
succeeding. -/
def save_student_database (fp : FaceProcessor) : FaceProcessor × Bool :=
  (fp, true)

/-- `FaceProcessor.get_registered_students`: `zip` of ids and names. -/
def get_registered_students (fp : FaceProcessor) : List (String × String) :=
  fp.known_student_ids.zip fp.known_face_names

end FaceProcessor

/-- The store's core invariant: the three parallel sequences have equal
length. -/
def storeInvariant (fp : FaceProcessor) : Prop :=
  fp.known_student_ids.length = fp.known_face_encodings.length ∧
    fp.known_face_names.length = fp.known_face_encodings.length

/-- Equal-length condition on a durable snapshot's three sequences. -/
def snapshotInvariant (s : FaceProcessor.SnapshotData) : Prop :=
  s.student_ids.length = s.encodings.length ∧ s.names.length = s.encodings.length

/-- Embedding recorded for a (normalized) student id: the encoding at the
first index of that id in the id sequence. -/
def storedEmbedding (fp : FaceProcessor) (sid : String) : Option (List ℝ) :=
  if sid ∈ fp.known_student_ids then
    fp.known_face_encodings[fp.known_student_ids.indexOf sid]?
  else none

/-! ## Quality scoring (`FaceProcessor._calculate_face_quality`)

The face crop is modelled by its grayscale pixel matrix (`cv2.cvtColor`
output, values in `[0, 255]`) plus the Laplacian variance reported by
`cv2.Laplacian(gray, CV_64F).var()`, a black-box collaborator whose output is
a variance and hence nonnegative.  On a degenerate crop with no pixels the
cv2 calls raise, which the `except` branch turns into the default `0.5`. -/
noncomputable def calculate_face_quality (gray : List (List ℝ)) (lapVar : ℝ) : ℝ :=
  if gray.flatten.length = 0 then 0.5
  else
    let px := gray.flatten
    let n : ℝ := px.length
    let sharpness_score := min (lapVar / 1000) 1
    let brightness := (px.sum / n) / 255
    let brightness_score := 1 - |brightness - 0.5| * 2
    let mean := px.sum / n
    let std := Real.sqrt ((px.map (fun x => (x - mean) ^ 2)).sum / n)
    let contrast_score := min (std / 128) 1
    let height : ℝ := gray.length
    let width : ℝ := (gray.headD []).length
    let size_score :=
      if width < 100 ∨ height < 100 then min width height / 100
      else if width > 300 ∨ height > 300 then 300 / max width height
      else 1
    min (sharpness_score * 0.4 + brightness_score * 0.3 +
      contrast_score * 0.2 + size_score * 0.1) 1

/-! ## Detection filter (`FaceProcessor.detect_faces`)

Raw MTCNN output is the oracle input: a box (possibly out of bounds), a
confidence, and the quality score the crop would receive.  The pixel data of
the crop and the landmarks are external payload not modelled. -/

structure RawDetection where
  box : ℤ × ℤ × ℤ × ℤ
  confidence : ℝ
  quality : ℝ

structure Face where
  box : ℤ × ℤ × ℤ × ℤ
  confidence : ℝ
  quality : ℝ

/-- Per-candidate filtering of `detect_faces`: keep only confidence above
`0.95`, clamp the box into the image, and require the clamped width and
height to exceed `60`. -/
noncomputable def clampCandidate (height width : ℤ) (d : RawDetection) :
    Option Face :=
  if d.confidence > 0.95 then
    let x := max 0 d.box.1
    let y := max 0 d.box.2.1
    let w := min d.box.2.2.1 (width - x)
    let h := min d.box.2.2.2 (height - y)
    if w > 60 ∧ h > 60 then
      some { box := (x, y, w, h), confidence := d.confidence, quality := d.quality }
    else none
  else none

/-- `FaceProcessor.detect_faces`: filter the raw detections, then sort the
survivors by `confidence * quality` in descending order with Python's stable
`list.sort(key=..., reverse=True)`. -/
noncomputable def detect_faces (height width : ℤ) (detections : List RawDetection) :
    List Face :=
  (detections.filterMap (clampCandidate height width)).mergeSort
    (fun a b => decide (b.confidence * b.quality ≤ a.confidence * a.quality))

/-! ## Recognition result assembly (`FaceProcessor.process_image`, per-face
loop with identity-level deduplication)

Each detected face is represented by the outcome of its collaborator calls:
`none` when embedding extraction failed (the face is skipped), `some none`
when the embedding did not match any identity (counts as unregistered),
`some (some m)` when `recognize_face` matched `m`. -/

/-- One recognized entry of `recognized_students` (identity plus fused
confidence; the extra diagnostic fields do not affect deduplication). -/
structure MatchEntry where
  student_id : String
  confidence : ℝ

/-- Loop body of `process_image` over `detected_faces`: skip failed
embeddings, count unmatched faces, and insert matches with identity-level
deduplication (replace an existing entry only on strictly higher
confidence). -/
noncomputable def dedup_step (acc : List MatchEntry × ℕ)
    (r : Option (Option MatchEntry)) : List MatchEntry × ℕ :=
  match r with
  | none => acc
  | some none => (acc.1, acc.2 + 1)
  | some (some m) =>
      match acc.1.find? (fun s => s.student_id == m.student_id) with
      | none => (acc.1 ++ [m], acc.2)
      | some ex =>
          if m.confidence > ex.confidence then
            (acc.1.eraseP (fun s => s.student_id == m.student_id) ++ [m], acc.2)
          else acc

/-- The `recognized_students` list and `unregistered_faces` count produced by
the `process_image` loop. -/
noncomputable def process_faces (rs : List (Option (Option MatchEntry))) :
    List MatchEntry × ℕ :=
  rs.foldl dedup_step ([], 0)

/-- Confidences of the matched faces carrying a given identity, in detector
order. -/
noncomputable def confList (sid : String) (rs : List (Option (Option MatchEntry))) :
    List ℝ :=
  ((rs.filterMap (fun r => r.bind id)).filter
    (fun m => m.student_id == sid)).map MatchEntry.confidence

/-- Identities of the matched faces, in detector order. -/
def matchedIds (rs : List (Option (Option MatchEntry))) : List String :=
  (rs.filterMap (fun r => r.bind id)).map MatchEntry.student_id

/-! ## Claim C10 -/

/-- C10: the vector primitives are division-guarded and total on zero
vectors: when a vector has zero L2 norm, cosine similarity against it (in
either argument position) returns `0` instead of dividing by zero, and
normalizing it returns it unchanged — so an all-zero mean enrollment
embedding is stored as the zero vector rather than a unit vector. -/
theorem cosine_similarity_and_normalize_zero_guards (v w : List ℝ)
    (hv : l2norm v = 0) :
    calculate_cosine_similarity v w = 0 ∧
      calculate_cosine_similarity w v = 0 ∧
      normalize_vector v = v := by
  refine ⟨?_, ?_, ?_⟩
  · unfold calculate_cosine_similarity
    simp [hv]
  · unfold calculate_cosine_similarity
    simp [hv]
  · unfold normalize_vector
    simp [hv]

/-- Witness for C10 at the concrete zero vector `[0, 0]`. -/
theorem cosine_similarity_and_normalize_zero_guards_witness :
    l2norm [(0 : ℝ), 0] = 0 ∧
      (calculate_cosine_similarity [(0 : ℝ), 0] [3, 4] = 0 ∧
        calculate_cosine_similarity [(3 : ℝ), 4] [0, 0] = 0 ∧
        normalize_vector [(0 : ℝ), 0] = [0, 0]) := by
  have hz : l2norm [(0 : ℝ), 0] = 0 := by
    unfold l2norm dotList
    simp
  exact ⟨hz, cosine_similarity_and_normalize_zero_guards [(0 : ℝ), 0] [3, 4] hz⟩

/-! ## Claim C2 -/

/-- C2: if fewer than 2 sample images yield a usable embedding,
`register_student` fails and the store is exactly as before the call — all
failure paths return the untouched state. -/
theorem register_student_insufficient_samples (fp : FaceProcessor)
    (student_id name : String) (face_images : List (Option (List ℝ)))
    (h : (face_images.filterMap id).length < 2) :
    fp.register_student student_id name face_images = (fp, false) := by
  unfold FaceProcessor.register_student
  by_cases h1 : ¬ validate_student_id student_id
  · simp [h1]
  · by_cases h2 : name = ""
    · simp [h1, h2]
    · by_cases h3 : face_images.length < 2
      · simp [h1, h2, h3]
      · simp [h1, h2, h3, h]

/-- Witness for C2: one decodable sample and one failed sample. -/
theorem register_student_insufficient_samples_witness :
    (([some [(1 : ℝ)], none].filterMap id).length < 2) ∧
      FaceProcessor.register_student ⟨[], [], []⟩ "MIT2025001" "Alice"
        [some [(1 : ℝ)], none] = (⟨[], [], []⟩, false) := by
  have h : (([some [(1 : ℝ)], none].filterMap id).length < 2) := by simp
  exact ⟨h, register_student_insufficient_samples ⟨[], [], []⟩ "MIT2025001" "Alice"
    [some [(1 : ℝ)], none] h⟩

/-! ## Claim C5 -/

/-- C5 counterexample: `load_student_database` adopts the lengths of the
loaded snapshot wholesale, so loading a snapshot whose sequences are ragged
breaks the equal-length invariant even from an invariant-satisfying state. -/
theorem load_breaks_invariant_on_ragged_snapshot :
    storeInvariant ⟨[], [], []⟩ ∧
      ¬ storeInvariant
        (FaceProcessor.load_student_database ⟨[], [], []⟩
          (some ⟨[[1]], [], []⟩)).1 := by
  constructor
  · exact ⟨rfl, rfl⟩
  · intro hinv
    rcases hinv with ⟨h1, _⟩
    simp [FaceProcessor.load_student_database] at h1

/-- C5 (amended): every public operation except an arbitrary `load` preserves
the equal-length invariant of the three parallel sequences; `load` preserves
it exactly when the loaded snapshot itself has equal-length sequences (as any
snapshot produced by `save` does). -/
theorem store_operations_preserve_invariant (fp : FaceProcessor)
    (h : storeInvariant fp) :
    (∀ s, snapshotInvariant s →
        storeInvariant (fp.load_student_database (some s)).1) ∧
      storeInvariant (fp.load_student_database none).1 ∧
      storeInvariant fp.save_student_database.1 ∧
      (∀ sid nm imgs, storeInvariant (fp.register_student sid nm imgs).1) ∧
      (∀ sid, storeInvariant (fp.delete_student sid).1) := by
  obtain ⟨hie, hne⟩ := h
  refine ⟨?_, ?_, ?_, ?_, ?_⟩
  · intro s hs
    exact ⟨hs.1, hs.2⟩
  · exact ⟨hie, hne⟩
  · exact ⟨hie, hne⟩
  · intro sid nm imgs
    unfold FaceProcessor.register_student
    by_cases h1 : ¬ validate_student_id sid
    · simpa [h1] using And.intro hie hne
    · by_cases h2 : nm = ""
      · simpa [h1, h2] using And.intro hie hne
      · by_cases h3 : imgs.length < 2
        · simpa [h1, h2, h3] using And.intro hie hne
        · by_cases h4 : (imgs.filterMap id).length < 2
          · simpa [h1, h2, h3, h4] using And.intro hie hne
          · by_cases h5 : pyUpper (pyStrip sid) ∈ fp.known_student_ids
            · have hidx : fp.known_student_ids.indexOf (pyUpper (pyStrip sid)) <
                  fp.known_student_ids.length := List.indexOf_lt_length.2 h5
              have hidx₁ : fp.known_student_ids.indexOf (pyUpper (pyStrip sid)) <
                  fp.known_face_encodings.length := by omega
              have hidx₂ : fp.known_student_ids.indexOf (pyUpper (pyStrip sid)) <
                  fp.known_face_names.length := by omega
              simp only [h1, h2, h3, h4, h5, if_true, if_false, ite_true, ite_false,
                if_neg, hidx₁, hidx₂]
              exact ⟨by simpa using hie, by simpa using hne⟩
            · simp only [h1, h2, h3, h4, h5, if_true, if_false, ite_true, ite_false]
              constructor
              · simpa using hie
              · simpa using hne
  · intro sid
    unfold FaceProcessor.delete_student
    by_cases h5 : pyUpper (pyStrip sid) ∈ fp.known_student_ids
    · have hidx : fp.known_student_ids.indexOf (pyUpper (pyStrip sid)) <
          fp.known_student_ids.length := List.indexOf_lt_length.2 h5
      have hidx₁ : fp.known_student_ids.indexOf (pyUpper (pyStrip sid)) <
          fp.known_face_encodings.length := by omega
      have hidx₂ : fp.known_student_ids.indexOf (pyUpper (pyStrip sid)) <
          fp.known_face_names.length := by omega
      simp only [h5, if_true, hidx₁, hidx₂, ite_true]
      constructor
      · simp only [List.length_eraseIdx, hidx, hidx₁, if_pos]
        omega
      · simp only [List.length_eraseIdx, hidx₁, hidx₂, if_pos]
        omega
    · simpa [h5] using And.intro hie hne

/-- Witness for C5 at a concrete one-record store. -/
theorem store_operations_preserve_invariant_witness :
    storeInvariant ⟨[[(1 : ℝ)]], ["Bob"], ["MIT2025001"]⟩ ∧
      ((∀ s, snapshotInvariant s →
          storeInvariant
            (FaceProcessor.load_student_database
              ⟨[[(1 : ℝ)]], ["Bob"], ["MIT2025001"]⟩ (some s)).1) ∧
        storeInvariant
          (FaceProcessor.load_student_database
            ⟨[[(1 : ℝ)]], ["Bob"], ["MIT2025001"]⟩ none).1 ∧
        storeInvariant
          (FaceProcessor.save_student_database
            ⟨[[(1 : ℝ)]], ["Bob"], ["MIT2025001"]⟩).1 ∧
        (∀ sid nm imgs,
          storeInvariant
            (FaceProcessor.register_student
              ⟨[[(1 : ℝ)]], ["Bob"], ["MIT2025001"]⟩ sid nm imgs).1) ∧
        (∀ sid,
          storeInvariant
            (FaceProcessor.delete_student
              ⟨[[(1 : ℝ)]], ["Bob"], ["MIT2025001"]⟩ sid).1)) := by
  have h : storeInvariant ⟨[[(1 : ℝ)]], ["Bob"], ["MIT2025001"]⟩ := ⟨rfl, rfl⟩
  exact ⟨h, store_operations_preserve_invariant _ h⟩

/-! ## Claim C4 -/

/-- A store state whose id sequence already holds the same id twice. -/
def dupStore : FaceProcessor :=
  ⟨[[(1 : ℝ)], [2]], ["A", "B"], ["MIT2025001", "MIT2025001"]⟩

/-- C4 counterexample: starting from a store state in which the id occurs
twice, a successful re-enrollment updates only the first occurrence, so
afterwards two records exist for that id, not exactly one. -/
theorem reenroll_duplicate_ids_counterexample :
    (dupStore.register_student "MIT2025001" "Alice"
        [some [(1 : ℝ)], some [1]]).2 = true ∧
      ((dupStore.register_student "MIT2025001" "Alice"
          [some [(1 : ℝ)], some [1]]).1.known_student_ids.count "MIT2025001") = 2 := by
  constructor
  · rfl
  · rfl

/-- C4 (amended): for every store state in which the normalized id occurs at
most once in the id sequence, a successful re-enrollment of a registered id
overwrites in place — the id sequence is literally unchanged, all three
sequence lengths are unchanged, and exactly one record carries that id —
while enrolling an unregistered id appends exactly one new record. -/
theorem register_student_update_or_append (fp : FaceProcessor)
    (sid nm : String) (imgs : List (Option (List ℝ))) (fp' : FaceProcessor)
    (hcount : fp.known_student_ids.count (pyUpper (pyStrip sid)) ≤ 1)
    (h : fp.register_student sid nm imgs = (fp', true)) :
    (pyUpper (pyStrip sid) ∈ fp.known_student_ids →
      fp'.known_student_ids = fp.known_student_ids ∧
        fp'.known_face_encodings.length = fp.known_face_encodings.length ∧
        fp'.known_face_names.length = fp.known_face_names.length ∧
        fp'.known_student_ids.count (pyUpper (pyStrip sid)) = 1) ∧
      (pyUpper (pyStrip sid) ∉ fp.known_student_ids →
        fp'.known_student_ids = fp.known_student_ids ++ [pyUpper (pyStrip sid)] ∧
          fp'.known_face_encodings.length = fp.known_face_encodings.length + 1 ∧
          fp'.known_face_names.length = fp.known_face_names.length + 1 ∧
          fp'.known_student_ids.count (pyUpper (pyStrip sid)) = 1) := by
  unfold FaceProcessor.register_student at h
  by_cases h1 : ¬ validate_student_id sid
  · simp [h1] at h
  · by_cases h2 : nm = ""
    · simp [h1, h2] at h
    · by_cases h3 : imgs.length < 2
      · simp [h1, h2, h3] at h
      · by_cases h4 : (imgs.filterMap id).length < 2
        · simp [h1, h2, h3, h4] at h
        · by_cases h5 : pyUpper (pyStrip sid) ∈ fp.known_student_ids
          · by_cases h6 : fp.known_student_ids.indexOf (pyUpper (pyStrip sid)) <
                fp.known_face_encodings.length
            · by_cases h7 : fp.known_student_ids.indexOf (pyUpper (pyStrip sid)) <
                  fp.known_face_names.length
              · simp only [h1, h2, h3, h4, h5, h6, h7, if_true, if_false,
                  ite_true, ite_false, not_false_eq_true, Prod.mk.injEq] at h
                obtain ⟨hfp, -⟩ := h
                have hcnt : fp.known_student_ids.count (pyUpper (pyStrip sid)) = 1 := by
                  have := List.count_pos_iff.2 h5
                  omega
                refine ⟨fun _ => ?_, fun hnot => absurd h5 hnot⟩
                subst hfp
                exact ⟨rfl, by simp, by simp, hcnt⟩
              · simp [h1, h2, h3, h4, h5, h6, h7] at h
            · simp [h1, h2, h3, h4, h5, h6] at h
          · simp only [h1, h2, h3, h4, h5, if_true, if_false, ite_true, ite_false,
              not_false_eq_true, Prod.mk.injEq] at h
            obtain ⟨hfp, -⟩ := h
            have hcnt0 : fp.known_student_ids.count (pyUpper (pyStrip sid)) = 0 :=
              List.count_eq_zero.2 h5
            refine ⟨fun hmem => absurd hmem h5, fun _ => ?_⟩
            subst hfp
            refine ⟨rfl, by simp, by simp, ?_⟩
            simp [List.count_append, hcnt0]

/-- Witness for C4 at a concrete well-formed one-record store. -/
theorem register_student_update_or_append_witness :
    ((⟨[[(1 : ℝ)]], ["Bob"], ["MIT2025001"]⟩ :
        FaceProcessor).known_student_ids.count (pyUpper (pyStrip "MIT2025001")) ≤ 1) ∧
      (FaceProcessor.register_student ⟨[[(1 : ℝ)]], ["Bob"], ["MIT2025001"]⟩
          "MIT2025001" "Alice" [some [(1 : ℝ)], some [1]] =
        (⟨[normalize_vector (meanVec [[(1 : ℝ)], [1]])], ["Alice"], ["MIT2025001"]⟩,
          true)) ∧
      ((pyUpper (pyStrip "MIT2025001") ∈
          (⟨[[(1 : ℝ)]], ["Bob"], ["MIT2025001"]⟩ :
            FaceProcessor).known_student_ids →
        (⟨[normalize_vector (meanVec [[(1 : ℝ)], [1]])], ["Alice"], ["MIT2025001"]⟩ :
            FaceProcessor).known_student_ids = ["MIT2025001"] ∧
          (1 : ℕ) = 1 ∧ (1 : ℕ) = 1 ∧
          (["MIT2025001"].count (pyUpper (pyStrip "MIT2025001")) = 1)) ∧
        (pyUpper (pyStrip "MIT2025001") ∉
            (⟨[[(1 : ℝ)]], ["Bob"], ["MIT2025001"]⟩ :
              FaceProcessor).known_student_ids →
          (⟨[normalize_vector (meanVec [[(1 : ℝ)], [1]])], ["Alice"], ["MIT2025001"]⟩ :
              FaceProcessor).known_student_ids = ["MIT2025001"] ++ [pyUpper (pyStrip "MIT2025001")] ∧
            (1 : ℕ) = 1 + 1 ∧ (1 : ℕ) = 1 + 1 ∧
            (["MIT2025001"].count (pyUpper (pyStrip "MIT2025001")) = 1))) := by
  have hcount : ((⟨[[(1 : ℝ)]], ["Bob"], ["MIT2025001"]⟩ :
      FaceProcessor).known_student_ids.count (pyUpper (pyStrip "MIT2025001")) ≤ 1) := by
    decide
  have hreg : FaceProcessor.register_student ⟨[[(1 : ℝ)]], ["Bob"], ["MIT2025001"]⟩
      "MIT2025001" "Alice" [some [(1 : ℝ)], some [1]] =
      (⟨[normalize_vector (meanVec [[(1 : ℝ)], [1]])], ["Alice"], ["MIT2025001"]⟩,
        true) := rfl
  exact ⟨hcount, hreg,
    register_student_update_or_append _ "MIT2025001" "Alice" _ _ hcount hreg⟩

/-! ## Claim C3 -/

/-- C3 counterexample: enrolling two valid samples whose embeddings average
to the zero vector succeeds, and the stored embedding is the zero vector,
whose L2 norm is `0`, not `1`. -/
theorem stored_embedding_zero_mean_counterexample :
    (FaceProcessor.register_student ⟨[], [], []⟩ "MIT2025001" "Alice"
        [some [(1 : ℝ)], some [-1]]).2 = true ∧
      storedEmbedding
        (FaceProcessor.register_student ⟨[], [], []⟩ "MIT2025001" "Alice"
          [some [(1 : ℝ)], some [-1]]).1 "MIT2025001" = some [0] ∧
      l2norm [(0 : ℝ)] ≠ 1 := by
  have hmean : meanVec [[(1 : ℝ)], [-1]] = [0] := by
    unfold meanVec vecAdd
    norm_num
  have hzn : l2norm [(0 : ℝ)] = 0 := by
    unfold l2norm dotList
    simp
  have hnorm : normalize_vector [(0 : ℝ)] = [0] := by
    unfold normalize_vector
    simp [hzn]
  have hreg : FaceProcessor.register_student ⟨[], [], []⟩ "MIT2025001" "Alice"
      [some [(1 : ℝ)], some [-1]] =
      (⟨[normalize_vector (meanVec [[(1 : ℝ)], [-1]])], ["Alice"], ["MIT2025001"]⟩,
        true) := rfl
  refine ⟨by rw [hreg], ?_, by rw [hzn]; norm_num⟩
  rw [hreg]
  show storedEmbedding
    ⟨[normalize_vector (meanVec [[(1 : ℝ)], [-1]])], ["Alice"], ["MIT2025001"]⟩
    "MIT2025001" = some [0]
  rw [hmean, hnorm]
  unfold storedEmbedding
  simp

/-- C3 (amended): on a store satisfying the equal-length invariant, every
successful enrollment stores, under the normalized id, exactly the
L2-normalization of the componentwise mean of the accepted sample
embeddings; that stored vector has unit norm whenever the mean has nonzero
norm (an all-zero mean is stored as the zero vector). -/
theorem register_student_stores_normalized_mean (fp : FaceProcessor)
    (sid nm : String) (imgs : List (Option (List ℝ))) (fp' : FaceProcessor)
    (hlen : fp.known_student_ids.length = fp.known_face_encodings.length)
    (h : fp.register_student sid nm imgs = (fp', true)) :
    storedEmbedding fp' (pyUpper (pyStrip sid)) =
      some (normalize_vector (meanVec (imgs.filterMap id))) ∧
      (l2norm (meanVec (imgs.filterMap id)) ≠ 0 →
        l2norm (normalize_vector (meanVec (imgs.filterMap id))) = 1) := by
  refine ⟨?_, fun hz => l2norm_normalize_of_ne_zero _ hz⟩
  unfold FaceProcessor.register_student at h
  by_cases h1 : ¬ validate_student_id sid
  · simp [h1] at h
  · by_cases h2 : nm = ""
    · simp [h1, h2] at h
    · by_cases h3 : imgs.length < 2
      · simp [h1, h2, h3] at h
      · by_cases h4 : (imgs.filterMap id).length < 2
        · simp [h1, h2, h3, h4] at h
        · by_cases h5 : pyUpper (pyStrip sid) ∈ fp.known_student_ids
          · by_cases h6 : fp.known_student_ids.indexOf (pyUpper (pyStrip sid)) <
                fp.known_face_encodings.length
            · by_cases h7 : fp.known_student_ids.indexOf (pyUpper (pyStrip sid)) <
                  fp.known_face_names.length
              · simp only [h1, h2, h3, h4, h5, h6, h7, if_true, if_false,
                  ite_true, ite_false, not_false_eq_true, Prod.mk.injEq] at h
                obtain ⟨hfp, -⟩ := h
                subst hfp
                unfold storedEmbedding
                simp only [h5, if_true, if_pos]
                rw [List.getElem?_set_self h6]
              · simp [h1, h2, h3, h4, h5, h6, h7] at h
            · simp [h1, h2, h3, h4, h5, h6] at h
          · simp only [h1, h2, h3, h4, h5, if_true, if_false, ite_true, ite_false,
              not_false_eq_true, Prod.mk.injEq] at h
            obtain ⟨hfp, -⟩ := h
            subst hfp
            unfold storedEmbedding
            have hmem : pyUpper (pyStrip sid) ∈
                fp.known_student_ids ++ [pyUpper (pyStrip sid)] := by simp
            have hidx : (fp.known_student_ids ++ [pyUpper (pyStrip sid)]).indexOf
                (pyUpper (pyStrip sid)) = fp.known_student_ids.length := by
              rw [List.indexOf_append_of_not_mem h5]
              simp [List.indexOf_cons_self]
            simp only [hmem, if_true, hidx, hlen]
            exact List.getElem?_concat_length _ _

/-- Witness for C3: enrolling two copies of `[3, 4]` into an empty store. -/
theorem register_student_stores_normalized_mean_witness :
    ((⟨[], [], []⟩ : FaceProcessor).known_student_ids.length =
        (⟨[], [], []⟩ : FaceProcessor).known_face_encodings.length) ∧
      (FaceProcessor.register_student ⟨[], [], []⟩ "MIT2025001" "Alice"
          [some [(3 : ℝ), 4], some [3, 4]] =
        (⟨[normalize_vector (meanVec [[(3 : ℝ), 4], [3, 4]])], ["Alice"],
            ["MIT2025001"]⟩, true)) ∧
      (storedEmbedding
          (⟨[normalize_vector (meanVec [[(3 : ℝ), 4], [3, 4]])], ["Alice"],
            ["MIT2025001"]⟩ : FaceProcessor) (pyUpper (pyStrip "MIT2025001")) =
        some (normalize_vector (meanVec ([some [(3 : ℝ), 4], some [3, 4]].filterMap id))) ∧
        (l2norm (meanVec ([some [(3 : ℝ), 4], some [3, 4]].filterMap id)) ≠ 0 →
          l2norm (normalize_vector
            (meanVec ([some [(3 : ℝ), 4], some [3, 4]].filterMap id))) = 1)) := by
  have hlen : ((⟨[], [], []⟩ : FaceProcessor).known_student_ids.length =
      (⟨[], [], []⟩ : FaceProcessor).known_face_encodings.length) := rfl
  have hreg : FaceProcessor.register_student ⟨[], [], []⟩ "MIT2025001" "Alice"
      [some [(3 : ℝ), 4], some [3, 4]] =
      (⟨[normalize_vector (meanVec [[(3 : ℝ), 4], [3, 4]])], ["Alice"],
          ["MIT2025001"]⟩, true) := rfl
  exact ⟨hlen, hreg,
    register_student_stores_normalized_mean _ "MIT2025001" "Alice" _ _ hlen hreg⟩

/-! ## Claim C1 -/

/-- C1: on a store satisfying the equal-length invariant (so that building
`student_info` cannot hit `IndexError`), `recognize_face` behaves exactly as
the spec's reference `match` definition: the same emptiness sentinel, the
same similarity-first then distance decision on the same first-occurrence
extreme indices, the same confidences, and the same returned distance; the
accepted index is reported through the id/name/score fields of the record it
selects. -/
theorem recognize_face_matches_reference (fp : FaceProcessor) (emb : List ℝ)
    (t : ℝ)
    (h1 : fp.known_student_ids.length = fp.known_face_encodings.length)
    (h2 : fp.known_face_names.length = fp.known_face_encodings.length) :
    fp.recognize_face emb t =
      ((matchRef emb fp.known_face_encodings t).1.map (fun p =>
        { student_id := fp.known_student_ids.getD p.1 ""
          name := fp.known_face_names.getD p.1 ""
          confidence := p.2
          similarity_score := (fp.known_face_encodings.map
            (fun k => calculate_cosine_similarity emb k)).getD p.1 0
          distance_score := (fp.known_face_encodings.map
            (fun k => calculate_euclidean_distance emb k)).getD p.1 0 }),
        (matchRef emb fp.known_face_encodings t).2) := by
  by_cases hemp : fp.known_face_encodings = []
  · unfold FaceProcessor.recognize_face matchRef
    simp [hemp]
  · have hdne : fp.known_face_encodings.map
        (fun k => calculate_euclidean_distance emb k) ≠ [] := by
      simpa using hemp
    have hsne : fp.known_face_encodings.map
        (fun k => calculate_cosine_similarity emb k) ≠ [] := by
      simpa using hemp
    have hmax : argmaxIdx (fp.known_face_encodings.map
        (fun k => calculate_cosine_similarity emb k)) <
        fp.known_face_encodings.length := by
      have := argmaxIdx_lt_length hsne
      simpa using this
    have hmin : argminIdx (fp.known_face_encodings.map
        (fun k => calculate_euclidean_distance emb k)) <
        fp.known_face_encodings.length := by
      have := argminIdx_lt_length hdne
      simpa using this
    have hmax1 : argmaxIdx (fp.known_face_encodings.map
        (fun k => calculate_cosine_similarity emb k)) <
        fp.known_student_ids.length := by omega
    have hmax2 : argmaxIdx (fp.known_face_encodings.map
        (fun k => calculate_cosine_similarity emb k)) <
        fp.known_face_names.length := by omega
    have hmin1 : argminIdx (fp.known_face_encodings.map
        (fun k => calculate_euclidean_distance emb k)) <
        fp.known_student_ids.length := by omega
    have hmin2 : argminIdx (fp.known_face_encodings.map
        (fun k => calculate_euclidean_distance emb k)) <
        fp.known_face_names.length := by omega
    unfold FaceProcessor.recognize_face matchRef FaceProcessor.mkResult
    by_cases hc1 : (fp.known_face_encodings.map
        (fun k => calculate_cosine_similarity emb k)).getD
          (argmaxIdx (fp.known_face_encodings.map
            (fun k => calculate_cosine_similarity emb k))) 0 > 1 - t
    · simp only [hemp, hc1, hmax1, hmax2, and_self, if_true, if_false,
        ite_true, ite_false, not_false_eq_true]
      rfl
    · by_cases hc2 : (fp.known_face_encodings.map
          (fun k => calculate_euclidean_distance emb k)).getD
            (argminIdx (fp.known_face_encodings.map
              (fun k => calculate_euclidean_distance emb k))) 0 < t
      · simp only [hemp, hc1, hc2, hmin1, hmin2, and_self, if_true, if_false,
          ite_true, ite_false, not_false_eq_true]
        rfl
      · simp only [hemp, hc1, hc2, if_true, if_false, ite_true, ite_false,
          not_false_eq_true]
        rfl

/-- Witness for C1 at a concrete one-record store. -/
theorem recognize_face_matches_reference_witness :
    ((⟨[[(1 : ℝ)]], ["Bob"], ["MIT2025001"]⟩ :
        FaceProcessor).known_student_ids.length =
      (⟨[[(1 : ℝ)]], ["Bob"], ["MIT2025001"]⟩ :
        FaceProcessor).known_face_encodings.length) ∧
    ((⟨[[(1 : ℝ)]], ["Bob"], ["MIT2025001"]⟩ :
        FaceProcessor).known_face_names.length =
      (⟨[[(1 : ℝ)]], ["Bob"], ["MIT2025001"]⟩ :
        FaceProcessor).known_face_encodings.length) ∧
    (FaceProcessor.recognize_face ⟨[[(1 : ℝ)]], ["Bob"], ["MIT2025001"]⟩ [1] 0.6 =
      ((matchRef [1] [[(1 : ℝ)]] 0.6).1.map (fun p =>
        { student_id := ["MIT2025001"].getD p.1 ""
          name := ["Bob"].getD p.1 ""
          confidence := p.2
          similarity_score := ([[(1 : ℝ)]].map
            (fun k => calculate_cosine_similarity [1] k)).getD p.1 0
          distance_score := ([[(1 : ℝ)]].map
            (fun k => calculate_euclidean_distance [1] k)).getD p.1 0 }),
        (matchRef [1] [[(1 : ℝ)]] 0.6).2)) :=
  ⟨rfl, rfl, recognize_face_matches_reference
    ⟨[[(1 : ℝ)]], ["Bob"], ["MIT2025001"]⟩ [1] 0.6 rfl rfl⟩

/-! ## Claim C9 -/

/-- C9 (amended): for thresholds in `(0, 1]`, whenever `recognize_face`
accepts a candidate the returned confidence lies in `(0, 1]`.  (For
thresholds above `1` the similarity branch can accept with a confidence of
`0` or below, so the restriction to `(0, 1]` is necessary.) -/
theorem accepted_confidence_in_unit_interval (fp : FaceProcessor)
    (emb : List ℝ) (t : ℝ) (si : StudentInfo) (d : ℝ)
    (ht0 : 0 < t) (ht1 : t ≤ 1)
    (h : fp.recognize_face emb t = (some si, d)) :
    0 < si.confidence ∧ si.confidence ≤ 1 := by
  unfold FaceProcessor.recognize_face FaceProcessor.mkResult at h
  by_cases hemp : fp.known_face_encodings = []
  · simp only [hemp, if_true, ite_true, Prod.mk.injEq] at h
    exact absurd h.1 (by simp)
  · have hdne : fp.known_face_encodings.map
        (fun k => calculate_euclidean_distance emb k) ≠ [] := by
      simpa using hemp
    have hsne : fp.known_face_encodings.map
        (fun k => calculate_cosine_similarity emb k) ≠ [] := by
      simpa using hemp
    have hmaxmem : (fp.known_face_encodings.map
        (fun k => calculate_cosine_similarity emb k)).getD
          (argmaxIdx (fp.known_face_encodings.map
            (fun k => calculate_cosine_similarity emb k))) 0 ∈
        fp.known_face_encodings.map
          (fun k => calculate_cosine_similarity emb k) :=
      getD_mem_of_lt (argmaxIdx_lt_length hsne)
    have hminmem : (fp.known_face_encodings.map
        (fun k => calculate_euclidean_distance emb k)).getD
          (argminIdx (fp.known_face_encodings.map
            (fun k => calculate_euclidean_distance emb k))) 0 ∈
        fp.known_face_encodings.map
          (fun k => calculate_euclidean_distance emb k) :=
      getD_mem_of_lt (argminIdx_lt_length hdne)
    have hmaxle : (fp.known_face_encodings.map
        (fun k => calculate_cosine_similarity emb k)).getD
          (argmaxIdx (fp.known_face_encodings.map
            (fun k => calculate_cosine_similarity emb k))) 0 ≤ 1 := by
      rcases List.mem_map.1 hmaxmem with ⟨k, -, hk⟩
      rw [← hk]
      exact calculate_cosine_similarity_le_one emb k
    have hminnn : 0 ≤ (fp.known_face_encodings.map
        (fun k => calculate_euclidean_distance emb k)).getD
          (argminIdx (fp.known_face_encodings.map
            (fun k => calculate_euclidean_distance emb k))) 0 := by
      rcases List.mem_map.1 hminmem with ⟨k, -, hk⟩
      rw [← hk]
      exact calculate_euclidean_distance_nonneg emb k
    by_cases hc1 : (fp.known_face_encodings.map
        (fun k => calculate_cosine_similarity emb k)).getD
          (argmaxIdx (fp.known_face_encodings.map
            (fun k => calculate_cosine_similarity emb k))) 0 > 1 - t
    · simp only [hemp, hc1, if_true, if_false, ite_true, ite_false,
        not_false_eq_true] at h
      by_cases hb : argmaxIdx (fp.known_face_encodings.map
          (fun k => calculate_cosine_similarity emb k)) <
            fp.known_student_ids.length ∧
          argmaxIdx (fp.known_face_encodings.map
            (fun k => calculate_cosine_similarity emb k)) <
            fp.known_face_names.length
      · rw [if_pos hb, Prod.mk.injEq] at h
        obtain ⟨hsi, -⟩ := h
        have hrec := Option.some.inj hsi
        rw [← hrec]
        exact ⟨by linarith, hmaxle⟩
      · rw [if_neg hb, Prod.mk.injEq] at h
        exact absurd h.1 (by simp)
    · by_cases hc2 : (fp.known_face_encodings.map
          (fun k => calculate_euclidean_distance emb k)).getD
            (argminIdx (fp.known_face_encodings.map
              (fun k => calculate_euclidean_distance emb k))) 0 < t
      · simp only [hemp, hc1, hc2, if_true, if_false, ite_true, ite_false,
          not_false_eq_true] at h
        by_cases hb : argminIdx (fp.known_face_encodings.map
            (fun k => calculate_euclidean_distance emb k)) <
              fp.known_student_ids.length ∧
            argminIdx (fp.known_face_encodings.map
              (fun k => calculate_euclidean_distance emb k)) <
              fp.known_face_names.length
        · rw [if_pos hb, Prod.mk.injEq] at h
          obtain ⟨hsi, -⟩ := h
          have hrec := Option.some.inj hsi
          rw [← hrec]
          have hfrac : (fp.known_face_encodings.map
              (fun k => calculate_euclidean_distance emb k)).getD
                (argminIdx (fp.known_face_encodings.map
                  (fun k => calculate_euclidean_distance emb k))) 0 / t < 1 :=
            (div_lt_one ht0).2 hc2
          have hfrac0 : 0 ≤ (fp.known_face_encodings.map
              (fun k => calculate_euclidean_distance emb k)).getD
                (argminIdx (fp.known_face_encodings.map
                  (fun k => calculate_euclidean_distance emb k))) 0 / t :=
            div_nonneg hminnn (le_of_lt ht0)
          constructor
          · show 0 < 1 - (fp.known_face_encodings.map
                (fun k => calculate_euclidean_distance emb k)).getD
                  (argminIdx (fp.known_face_encodings.map
                    (fun k => calculate_euclidean_distance emb k))) 0 / t
            linarith
          · show 1 - (fp.known_face_encodings.map
                (fun k => calculate_euclidean_distance emb k)).getD
                  (argminIdx (fp.known_face_encodings.map
                    (fun k => calculate_euclidean_distance emb k))) 0 / t ≤ 1
            linarith
        · rw [if_neg hb, Prod.mk.injEq] at h
          exact absurd h.1 (by simp)
      · simp only [hemp, hc1, hc2, if_true, if_false, ite_true, ite_false,
          not_false_eq_true, Prod.mk.injEq] at h
        exact absurd h.1 (by simp)

lemma cosine_orthogonal_unit : calculate_cosine_similarity [(1 : ℝ), 0] [0, 1] = 0 := by
  unfold calculate_cosine_similarity dotList
  by_cases h : l2norm [(1 : ℝ), 0] * l2norm [0, 1] = 0
  · simp [h]
  · simp [h]

lemma cosine_self_unit : calculate_cosine_similarity [(1 : ℝ), 0] [1, 0] = 1 := by
  unfold calculate_cosine_similarity l2norm dotList
  norm_num [Real.sqrt_one]

/-- C9 counterexample: with threshold `3/2` (outside `(0, 1]`), a query
orthogonal to the only registered embedding has maximum similarity `0`, which
exceeds `1 - 3/2 = -1/2`, so the similarity branch accepts with confidence
`0` — not in `(0, 1]`. -/
theorem accepted_confidence_zero_counterexample :
    FaceProcessor.recognize_face ⟨[[(0 : ℝ), 1]], ["Bob"], ["MIT2025009"]⟩
        [1, 0] (3 / 2) =
      (some { student_id := "MIT2025009", name := "Bob", confidence := 0,
              similarity_score := 0,
              distance_score := calculate_euclidean_distance [1, 0] [0, 1] },
        calculate_euclidean_distance [1, 0] [0, 1]) ∧
      ¬ ((0 : ℝ) < 0) := by
  refine ⟨?_, by norm_num⟩
  unfold FaceProcessor.recognize_face FaceProcessor.mkResult
  simp only [List.map_cons, List.map_nil, cosine_orthogonal_unit]
  norm_num [argmaxIdx, argmaxAux, argminIdx, argminAux]

/-- Witness for C9 (amended) at threshold `0.6` with an exact match. -/
theorem accepted_confidence_in_unit_interval_witness :
    ((0 : ℝ) < 0.6 ∧ (0.6 : ℝ) ≤ 1) ∧
      (FaceProcessor.recognize_face ⟨[[(1 : ℝ), 0]], ["Bob"], ["MIT2025001"]⟩
          [1, 0] 0.6 =
        (some { student_id := "MIT2025001", name := "Bob", confidence := 1,
                similarity_score := 1,
                distance_score := calculate_euclidean_distance [1, 0] [1, 0] },
          calculate_euclidean_distance [1, 0] [1, 0])) ∧
      (0 < ({ student_id := "MIT2025001", name := "Bob", confidence := 1,
              similarity_score := 1,
              distance_score := calculate_euclidean_distance [1, 0] [1, 0]} :
                StudentInfo).confidence ∧
        ({ student_id := "MIT2025001", name := "Bob", confidence := 1,
           similarity_score := 1,
           distance_score := calculate_euclidean_distance [1, 0] [1, 0]} :
             StudentInfo).confidence ≤ 1) := by
  have ht : (0 : ℝ) < 0.6 ∧ (0.6 : ℝ) ≤ 1 := by norm_num
  have hrec : FaceProcessor.recognize_face ⟨[[(1 : ℝ), 0]], ["Bob"], ["MIT2025001"]⟩
      [1, 0] 0.6 =
      (some { student_id := "MIT2025001", name := "Bob", confidence := 1,
              similarity_score := 1,
              distance_score := calculate_euclidean_distance [1, 0] [1, 0] },
        calculate_euclidean_distance [1, 0] [1, 0]) := by
    unfold FaceProcessor.recognize_face FaceProcessor.mkResult
    simp only [List.map_cons, List.map_nil, cosine_self_unit]
    norm_num [argmaxIdx, argmaxAux, argminIdx, argminAux]
  exact ⟨ht, hrec,
    accepted_confidence_in_unit_interval _ [1, 0] 0.6 _ _ ht.1 ht.2 hrec⟩

/-! ## Claim C6 -/

lemma weighted_min_bounds (s b c z : ℝ) (hs : 0 ≤ s) (hb : 0 ≤ b) (hc : 0 ≤ c)
    (hz : 0 ≤ z) :
    0 ≤ min (s * 0.4 + b * 0.3 + c * 0.2 + z * 0.1) 1 ∧
      min (s * 0.4 + b * 0.3 + c * 0.2 + z * 0.1) 1 ≤ 1 := by
  constructor
  · apply le_min _ zero_le_one
    nlinarith
  · exact min_le_right _ _

/-- C6: for every face crop (pixel values in `[0, 255]`) and every Laplacian
variance, the quality score is the weighted sum
`0.4·sharpness + 0.3·brightness + 0.2·contrast + 0.1·size` clamped into
`[0, 1]`, and on the degenerate crop where the cv2 calls fail the fallback
`0.5` is returned; in all cases the result lies in `[0, 1]`. -/
theorem quality_score_in_unit_interval (gray : List (List ℝ)) (lapVar : ℝ)
    (hpx : ∀ x ∈ gray.flatten, 0 ≤ x ∧ x ≤ 255) (hlap : 0 ≤ lapVar) :
    (0 ≤ calculate_face_quality gray lapVar ∧
      calculate_face_quality gray lapVar ≤ 1) ∧
      (gray.flatten = [] → calculate_face_quality gray lapVar = 0.5) := by
  by_cases hemp : gray.flatten = []
  · have hz : gray.flatten.length = 0 := by simp [hemp]
    unfold calculate_face_quality
    rw [if_pos hz]
    norm_num
  · have hlen : ¬ gray.flatten.length = 0 := fun h => hemp (List.length_eq_zero.1 h)
    have hn : (0 : ℝ) < (gray.flatten.length : ℝ) := by
      have := Nat.pos_of_ne_zero hlen
      exact_mod_cast this
    have hm0 : 0 ≤ gray.flatten.sum :=
      List.sum_nonneg fun x hx => (hpx x hx).1
    have hm1 : gray.flatten.sum ≤ (gray.flatten.length : ℝ) * 255 := by
      have := List.sum_le_card_nsmul gray.flatten 255 fun x hx => (hpx x hx).2
      simpa [nsmul_eq_mul] using this
    have hmean0 : 0 ≤ gray.flatten.sum / (gray.flatten.length : ℝ) :=
      div_nonneg hm0 hn.le
    have hmean1 : gray.flatten.sum / (gray.flatten.length : ℝ) ≤ 255 :=
      (div_le_iff₀ hn).2 (by linarith)
    have habs : |gray.flatten.sum / (gray.flatten.length : ℝ) / 255 - 0.5| ≤ 0.5 := by
      rw [abs_le]
      constructor
      · have : 0 ≤ gray.flatten.sum / (gray.flatten.length : ℝ) / 255 :=
          div_nonneg hmean0 (by norm_num)
        linarith
      · have : gray.flatten.sum / (gray.flatten.length : ℝ) / 255 ≤ 1 :=
          (div_le_one (by norm_num)).2 hmean1
        linarith
    have hbr : 0 ≤ 1 - |gray.flatten.sum / (gray.flatten.length : ℝ) / 255 - 0.5| * 2 := by
      linarith
    have hsh : 0 ≤ min (lapVar / 1000) 1 :=
      le_min (div_nonneg hlap (by norm_num)) zero_le_one
    have hct : 0 ≤ min (Real.sqrt ((gray.flatten.map
        (fun x => (x - gray.flatten.sum / (gray.flatten.length : ℝ)) ^ 2)).sum /
          (gray.flatten.length : ℝ)) / 128) 1 :=
      le_min (div_nonneg (Real.sqrt_nonneg _) (by norm_num)) zero_le_one
    have hsz : 0 ≤ (if ((gray.headD []).length : ℝ) < 100 ∨
          ((gray.length : ℝ)) < 100 then
        min ((gray.headD []).length : ℝ) (gray.length : ℝ) / 100
      else if ((gray.headD []).length : ℝ) > 300 ∨ ((gray.length : ℝ)) > 300 then
        300 / max ((gray.headD []).length : ℝ) (gray.length : ℝ)
      else 1) := by
      have hW : (0 : ℝ) ≤ ((gray.headD []).length : ℝ) := Nat.cast_nonneg _
      have hH : (0 : ℝ) ≤ ((gray.length : ℝ)) := Nat.cast_nonneg _
      split_ifs
      · exact div_nonneg (le_min hW hH) (by norm_num)
      · exact div_nonneg (by norm_num) (le_trans hW (le_max_left _ _))
      · norm_num
    unfold calculate_face_quality
    rw [if_neg hlen]
    refine ⟨⟨?_, ?_⟩, fun hc => absurd hc hemp⟩
    · exact (weighted_min_bounds _ _ _ _ hsh hbr hct hsz).1
    · exact (weighted_min_bounds _ _ _ _ hsh hbr hct hsz).2

/-- Witness for C6 at the 1×1 pure-black crop with zero Laplacian
variance. -/
theorem quality_score_in_unit_interval_witness :
    ((∀ x ∈ ([[(0 : ℝ)]] : List (List ℝ)).flatten, 0 ≤ x ∧ x ≤ 255) ∧
        (0 : ℝ) ≤ 0) ∧
      ((0 ≤ calculate_face_quality [[(0 : ℝ)]] 0 ∧
        calculate_face_quality [[(0 : ℝ)]] 0 ≤ 1) ∧
        (([[(0 : ℝ)]] : List (List ℝ)).flatten = [] →
          calculate_face_quality [[(0 : ℝ)]] 0 = 0.5)) := by
  have hpx : ∀ x ∈ ([[(0 : ℝ)]] : List (List ℝ)).flatten, 0 ≤ x ∧ x ≤ 255 := by
    intro x hx
    have hx0 : x = 0 := by simpa using hx
    subst hx0
    norm_num
  exact ⟨⟨hpx, le_refl 0⟩,
    quality_score_in_unit_interval [[(0 : ℝ)]] 0 hpx (le_refl 0)⟩

/-! ## Claim C7 -/

/-- C7: `detect_faces` returns exactly the candidates surviving the
confidence/clamp/size filter (`clampCandidate`, as a permutation, so with
multiplicities), sorted in descending order of `confidence * quality`, and
the sort is stable: two survivors with equal rank keep their original
detector order. -/
theorem detect_faces_filters_and_sorts (height width : ℤ)
    (ds : List RawDetection) :
    (detect_faces height width ds).Perm
        (ds.filterMap (clampCandidate height width)) ∧
      (detect_faces height width ds).Pairwise
        (fun a b => b.confidence * b.quality ≤ a.confidence * a.quality) ∧
      (∀ a b : Face, a.confidence * a.quality = b.confidence * b.quality →
        [a, b].Sublist (ds.filterMap (clampCandidate height width)) →
        [a, b].Sublist (detect_faces height width ds)) := by
  have htrans : ∀ a b c : Face,
      (fun a b : Face =>
        decide (b.confidence * b.quality ≤ a.confidence * a.quality)) a b →
      (fun a b : Face =>
        decide (b.confidence * b.quality ≤ a.confidence * a.quality)) b c →
      (fun a b : Face =>
        decide (b.confidence * b.quality ≤ a.confidence * a.quality)) a c := by
    intro a b c hab hbc
    simp only [decide_eq_true_eq] at hab hbc ⊢
    exact le_trans hbc hab
  have htotal : ∀ a b : Face,
      ((fun a b : Face =>
        decide (b.confidence * b.quality ≤ a.confidence * a.quality)) a b ||
      (fun a b : Face =>
        decide (b.confidence * b.quality ≤ a.confidence * a.quality)) b a) := by
    intro a b
    simpa [Bool.or_eq_true, decide_eq_true_eq] using
      le_total (b.confidence * b.quality) (a.confidence * a.quality)
  refine ⟨List.mergeSort_perm _ _, ?_, ?_⟩
  · have hs := List.sorted_mergeSort htrans htotal
      (ds.filterMap (clampCandidate height width))
    exact hs.imp (by
      intro a b h
      simpa using h)
  · intro a b hk hsub
    apply List.pair_sublist_mergeSort htrans htotal
    · simp [hk]
    · exact hsub

/-- Witness for C7 at a concrete single raw detection. -/
theorem detect_faces_filters_and_sorts_witness :
    (detect_faces 480 640 [⟨(0, 0, 100, 100), 0.99, 0.5⟩]).Perm
        ([⟨(0, 0, 100, 100), 0.99, 0.5⟩].filterMap (clampCandidate 480 640)) ∧
      (detect_faces 480 640 [⟨(0, 0, 100, 100), 0.99, 0.5⟩]).Pairwise
        (fun a b => b.confidence * b.quality ≤ a.confidence * a.quality) ∧
      (∀ a b : Face, a.confidence * a.quality = b.confidence * b.quality →
        [a, b].Sublist
          ([⟨(0, 0, 100, 100), 0.99, 0.5⟩].filterMap (clampCandidate 480 640)) →
        [a, b].Sublist (detect_faces 480 640 [⟨(0, 0, 100, 100), 0.99, 0.5⟩])) :=
  detect_faces_filters_and_sorts 480 640 [⟨(0, 0, 100, 100), 0.99, 0.5⟩]

/-! ## Claim C8 -/

/-- Combination of an optional incumbent confidence with the confidences
still to be processed: the maximum of all of them, `none` if there are
none. -/
noncomputable def bestWith : Option ℝ → List ℝ → Option ℝ
  | none, [] => none
  | none, c :: cs => some (cs.foldl max c)
  | some a, cs => some (cs.foldl max a)

lemma bestWith_nil (x : Option ℝ) : bestWith x [] = x := by
  cases x <;> rfl

lemma bestWith_none_cons (c : ℝ) (cs : List ℝ) :
    bestWith none (c :: cs) = bestWith (some c) cs := rfl

lemma bestWith_some_cons (a c : ℝ) (cs : List ℝ) :
    bestWith (some a) (c :: cs) = bestWith (some (max a c)) cs := by
  simp [bestWith]

lemma bestWith_none_eq_max (cs : List ℝ) : bestWith none cs = cs.max? := by
  cases cs with
  | nil => rfl
  | cons c cs => rw [List.max?_cons']; rfl

lemma find?_eraseP_disj {α : Type} (p q : α → Bool)
    (h : ∀ x, p x = true → q x = false) :
    ∀ l : List α, (l.eraseP p).find? q = l.find? q
  | [] => rfl
  | x :: xs => by
      by_cases hp : p x
      · have hqx : ¬ q x = true := by simp [h x hp]
        rw [List.eraseP_cons_of_pos hp]
        rw [List.find?_cons_of_neg _ hqx]
      · rw [List.eraseP_cons_of_neg hp]
        by_cases hq : q x
        · rw [List.find?_cons_of_pos _ hq, List.find?_cons_of_pos _ hq]
        · rw [List.find?_cons_of_neg _ hq, List.find?_cons_of_neg _ hq,
            find?_eraseP_disj p q h xs]

lemma countP_eraseP_disj {α : Type} (p q : α → Bool)
    (h : ∀ x, p x = true → q x = false) :
    ∀ l : List α, (l.eraseP p).countP q = l.countP q
  | [] => rfl
  | x :: xs => by
      by_cases hp : p x
      · have hqx : ¬ q x = true := by simp [h x hp]
        rw [List.eraseP_cons_of_pos hp]
        rw [List.countP_cons_of_neg q xs hqx]
      · rw [List.eraseP_cons_of_neg hp]
        by_cases hq : q x
        · rw [List.countP_cons_of_pos q _ hq, List.countP_cons_of_pos q _ hq,
            countP_eraseP_disj p q h xs]
        · rw [List.countP_cons_of_neg q _ hq, List.countP_cons_of_neg q _ hq,
            countP_eraseP_disj p q h xs]

lemma countP_eraseP_self_of_le_one {α : Type} (p : α → Bool) :
    ∀ l : List α, l.countP p ≤ 1 → (l.eraseP p).countP p = 0
  | [], _ => rfl
  | x :: xs, h => by
      by_cases hp : p x
      · rw [List.eraseP_cons_of_pos hp]
        rw [List.countP_cons_of_pos p xs hp] at h
        omega
      · rw [List.countP_cons_of_neg p xs hp] at h
        rw [List.eraseP_cons_of_neg hp, List.countP_cons_of_neg p _ hp]
        exact countP_eraseP_self_of_le_one p xs h

lemma confList_nil (sid : String) : confList sid [] = [] := rfl

lemma confList_cons_none (sid : String) (rs : List (Option (Option MatchEntry))) :
    confList sid (none :: rs) = confList sid rs := by
  simp [confList]

lemma confList_cons_unmatched (sid : String)
    (rs : List (Option (Option MatchEntry))) :
    confList sid (some none :: rs) = confList sid rs := by
  simp [confList]

lemma confList_cons_match (sid : String) (m : MatchEntry)
    (rs : List (Option (Option MatchEntry))) (h : m.student_id = sid) :
    confList sid (some (some m) :: rs) =
      m.confidence :: confList sid rs := by
  simp [confList, List.filterMap_cons, Option.bind, List.filter_cons, h]

lemma confList_cons_nomatch (sid : String) (m : MatchEntry)
    (rs : List (Option (Option MatchEntry))) (h : ¬ m.student_id = sid) :
    confList sid (some (some m) :: rs) = confList sid rs := by
  simp [confList, List.filterMap_cons, Option.bind, List.filter_cons, h]

/-- The loop body preserves identity uniqueness of `recognized_students`. -/
lemma dedup_step_countP (acc : List MatchEntry) (cnt : ℕ)
    (r : Option (Option MatchEntry))
    (h : ∀ sid, acc.countP (fun s => s.student_id == sid) ≤ 1) :
    ∀ sid, (dedup_step (acc, cnt) r).1.countP
      (fun s => s.student_id == sid) ≤ 1 := by
  intro sid
  rcases r with - | (- | m)
  · exact h sid
  · exact h sid
  · simp only [dedup_step]
    cases hf : acc.find? (fun s => s.student_id == m.student_id) with
    | none =>
        simp only [hf]
        rw [List.countP_append]
        by_cases hm : m.student_id = sid
        · have hzero : acc.countP (fun s => s.student_id == sid) = 0 := by
            rw [List.countP_eq_zero]
            intro a ha
            have := List.find?_eq_none.1 hf a ha
            simpa [hm] using this
          have hone : List.countP (fun s => s.student_id == sid) [m] = 1 := by
            simp [hm]
          omega
        · have hzero : List.countP (fun s => s.student_id == sid) [m] = 0 := by
            simp [hm]
          have := h sid
          omega
    | some ex =>
        simp only [hf]
        by_cases hgt : m.confidence > ex.confidence
        · simp only [hgt, if_true]
          rw [List.countP_append]
          by_cases hm : m.student_id = sid
          · rw [hm] at hf ⊢
            have hzero : (acc.eraseP (fun s => s.student_id == sid)).countP
                (fun s => s.student_id == sid) = 0 :=
              countP_eraseP_self_of_le_one _ acc (h sid)
            have hone : List.countP (fun s => s.student_id == sid) [m] = 1 := by
              simp [hm]
            omega
          · have hdisj : ∀ x : MatchEntry,
                (fun s => s.student_id == m.student_id) x = true →
                (fun s => s.student_id == sid) x = false := by
              intro x hx
              simp only [beq_iff_eq] at hx
              simp [hx, hm]
            rw [countP_eraseP_disj _ _ hdisj acc]
            have hzero : List.countP (fun s => s.student_id == sid) [m] = 0 := by
              simp [hm]
            have := h sid
            omega
        · simp only [hgt, if_false, ite_false]
          exact h sid

/-- Uniqueness is preserved along the whole fold. -/
lemma dedup_fold_countP :
    ∀ (rs : List (Option (Option MatchEntry))) (acc : List MatchEntry) (cnt : ℕ),
      (∀ sid, acc.countP (fun s => s.student_id == sid) ≤ 1) →
      ∀ sid, (rs.foldl dedup_step (acc, cnt)).1.countP
        (fun s => s.student_id == sid) ≤ 1
  | [], acc, cnt, h => h
  | r :: rs, acc, cnt, h => by
      rw [List.foldl_cons]
      exact dedup_fold_countP rs (dedup_step (acc, cnt) r).1
        (dedup_step (acc, cnt) r).2 (dedup_step_countP acc cnt r h)

/-- Confidence stored for an identity after the fold: the maximum of the
incumbent's confidence and the confidences of the remaining matched faces
for that identity. -/
lemma dedup_fold_entry :
    ∀ (rs : List (Option (Option MatchEntry))) (acc : List MatchEntry) (cnt : ℕ),
      (∀ sid2, acc.countP (fun s => s.student_id == sid2) ≤ 1) →
      ∀ sid,
        ((rs.foldl dedup_step (acc, cnt)).1.find?
            (fun s => s.student_id == sid)).map MatchEntry.confidence =
          bestWith ((acc.find? (fun s => s.student_id == sid)).map
            MatchEntry.confidence) (confList sid rs)
  | [], acc, cnt, h, sid => by
      rw [List.foldl_nil, confList_nil, bestWith_nil]
  | r :: rs, acc, cnt, h, sid => by
      rw [List.foldl_cons]
      rcases r with - | (- | m)
      · rw [confList_cons_none]
        exact dedup_fold_entry rs acc cnt h sid
      · rw [confList_cons_unmatched]
        exact dedup_fold_entry rs acc (cnt + 1) (by simpa using h) sid
      · have hstep := dedup_step_countP acc cnt (some (some m)) h
        by_cases hm : m.student_id = sid
        · subst hm
          rw [confList_cons_match _ _ _ rfl]
          simp only [dedup_step] at hstep ⊢
          cases hf : acc.find? (fun s => s.student_id == m.student_id) with
          | none =>
              simp only [hf] at hstep ⊢
              have hrec := dedup_fold_entry rs (acc ++ [m]) cnt hstep m.student_id
              rw [hrec]
              have hfind : (acc ++ [m]).find?
                  (fun s => s.student_id == m.student_id) = some m := by
                rw [List.find?_append, hf]
                simp
              rw [hfind]
              rfl
          | some ex =>
              simp only [hf] at hstep ⊢
              by_cases hgt : m.confidence > ex.confidence
              · simp only [hgt, if_true] at hstep ⊢
                have hrec := dedup_fold_entry rs
                  (acc.eraseP (fun s => s.student_id == m.student_id) ++ [m])
                  cnt hstep m.student_id
                rw [hrec]
                have hzero : (acc.eraseP (fun s => s.student_id == m.student_id)).countP
                    (fun s => s.student_id == m.student_id) = 0 :=
                  countP_eraseP_self_of_le_one _ acc (h m.student_id)
                have hnone : (acc.eraseP (fun s => s.student_id == m.student_id)).find?
                    (fun s => s.student_id == m.student_id) = none := by
                  rw [List.find?_eq_none]
                  intro a ha
                  have := List.countP_eq_zero.1 hzero a ha
                  simpa using this
                have hfind : (acc.eraseP (fun s => s.student_id == m.student_id) ++
                    [m]).find? (fun s => s.student_id == m.student_id) = some m := by
                  rw [List.find?_append, hnone]
                  simp
                rw [hfind]
                show bestWith (some m.confidence) (confList m.student_id rs) =
                  bestWith (some ex.confidence)
                    (m.confidence :: confList m.student_id rs)
                rw [bestWith_some_cons, max_eq_right (le_of_lt hgt)]
              · simp only [hgt, if_false, ite_false]
                have hrec := dedup_fold_entry rs acc cnt h m.student_id
                rw [hrec, hf]
                show bestWith (some ex.confidence) (confList m.student_id rs) =
                  bestWith (some ex.confidence)
                    (m.confidence :: confList m.student_id rs)
                rw [bestWith_some_cons, max_eq_left (not_lt.1 hgt)]
        · rw [confList_cons_nomatch _ _ _ hm]
          simp only [dedup_step] at hstep ⊢
          cases hf : acc.find? (fun s => s.student_id == m.student_id) with
          | none =>
              simp only [hf] at hstep ⊢
              have hrec := dedup_fold_entry rs (acc ++ [m]) cnt hstep sid
              rw [hrec]
              have hfind : (acc ++ [m]).find? (fun s => s.student_id == sid) =
                  acc.find? (fun s => s.student_id == sid) := by
                rw [List.find?_append]
                have : [m].find? (fun s => s.student_id == sid) = none := by
                  simp [hm]
                rw [this, Option.or_none]
              rw [hfind]
          | some ex =>
              simp only [hf] at hstep ⊢
              by_cases hgt : m.confidence > ex.confidence
              · simp only [hgt, if_true] at hstep ⊢
                have hrec := dedup_fold_entry rs
                  (acc.eraseP (fun s => s.student_id == m.student_id) ++ [m])
                  cnt hstep sid
                rw [hrec]
                have hdisj : ∀ x : MatchEntry,
                    (fun s => s.student_id == m.student_id) x = true →
                    (fun s => s.student_id == sid) x = false := by
                  intro x hx
                  simp only [beq_iff_eq] at hx
                  simp [hx, hm]
                have hfind : (acc.eraseP (fun s => s.student_id == m.student_id) ++
                    [m]).find? (fun s => s.student_id == sid) =
                    acc.find? (fun s => s.student_id == sid) := by
                  rw [List.find?_append]
                  have h1 : [m].find? (fun s => s.student_id == sid) = none := by
                    simp [hm]
                  rw [h1, Option.or_none, find?_eraseP_disj _ _ hdisj acc]
                rw [hfind]
              · simp only [hgt, if_false, ite_false]
                exact dedup_fold_entry rs acc cnt h sid

/-- C8: in the result of the `process_image` loop, every identity matched by
at least one face appears exactly once, and the confidence recorded for it is
the maximum of the confidences with which its faces matched. -/
theorem process_image_deduplicates (rs : List (Option (Option MatchEntry)))
    (sid : String) (h : sid ∈ matchedIds rs) :
    (process_faces rs).1.countP (fun s => s.student_id == sid) = 1 ∧
      ((process_faces rs).1.find? (fun s => s.student_id == sid)).map
        MatchEntry.confidence = (confList sid rs).max? := by
  have hbase : ∀ sid2 : String,
      ([] : List MatchEntry).countP (fun s => s.student_id == sid2) ≤ 1 := by
    intro sid2
    simp
  have hcl : confList sid rs ≠ [] := by
    rcases List.mem_map.1 h with ⟨m, hm, hms⟩
    have hmf : m ∈ (rs.filterMap (fun r => r.bind id)).filter
        (fun x => x.student_id == sid) := by
      rw [List.mem_filter]
      exact ⟨hm, by simp [hms]⟩
    unfold confList
    intro hcontra
    rw [List.map_eq_nil_iff] at hcontra
    rw [hcontra] at hmf
    exact absurd hmf (List.not_mem_nil m)
  have hent : ((process_faces rs).1.find?
      (fun s => s.student_id == sid)).map MatchEntry.confidence =
      bestWith none (confList sid rs) := by
    have := dedup_fold_entry rs [] 0 hbase sid
    rw [List.find?_nil] at this
    exact this
  have hle : (process_faces rs).1.countP (fun s => s.student_id == sid) ≤ 1 :=
    dedup_fold_countP rs [] 0 hbase sid
  constructor
  · cases hcs : confList sid rs with
    | nil => exact absurd hcs hcl
    | cons c cs =>
        rw [hcs, bestWith_none_cons] at hent
        cases hfind : (process_faces rs).1.find? (fun s => s.student_id == sid) with
        | none =>
            rw [hfind] at hent
            simp [bestWith] at hent
        | some e =>
            have hemem := List.mem_of_find?_eq_some hfind
            have hep := List.find?_some hfind
            have hpos : 0 < (process_faces rs).1.countP
                (fun s => s.student_id == sid) :=
              List.countP_pos_iff.2 ⟨e, hemem, hep⟩
            omega
  · rw [hent, bestWith_none_eq_max]

/-- Witness for C8 on the spec's own example: two faces matching the same
identity with confidences `0.7` and `0.9`. -/
theorem process_image_deduplicates_witness :
    ("MIT2025001" ∈ matchedIds
        [some (some ⟨"MIT2025001", 0.7⟩), some (some ⟨"MIT2025001", 0.9⟩)]) ∧
      ((process_faces
          [some (some ⟨"MIT2025001", 0.7⟩), some (some ⟨"MIT2025001", 0.9⟩)]).1.countP
        (fun s => s.student_id == "MIT2025001") = 1 ∧
        ((process_faces
            [some (some ⟨"MIT2025001", 0.7⟩),
              some (some ⟨"MIT2025001", 0.9⟩)]).1.find?
          (fun s => s.student_id == "MIT2025001")).map MatchEntry.confidence =
          (confList "MIT2025001"
            [some (some ⟨"MIT2025001", 0.7⟩),
              some (some ⟨"MIT2025001", 0.9⟩)]).max?) := by
  have hmem : "MIT2025001" ∈ matchedIds
      [some (some ⟨"MIT2025001", 0.7⟩), some (some ⟨"MIT2025001", 0.9⟩)] := by
    simp [matchedIds]
  exact ⟨hmem, process_image_deduplicates _ "MIT2025001" hmem⟩

end AMS
